import Mathlib

/-!
# MMC3316xMT magnetometer reader

Shallow embedding of `C/MMC3316xMT.c`.  The program is a single `main`:
it opens the I2C bus, binds the slave address, issues three control-register
writes, sleeps, selects the output register, reads six bytes and prints three
decoded axis values.

Modelling conventions.

* Everything the operating system decides (the return values of `open`,
  `ioctl`, `write`, `read`, and the bytes the driver stores into the buffer) is
  a field of `Env`.
* The buffers are declared with plain `char`.  Whether plain `char` is signed
  is implementation-defined in C (unsigned in the ARM Linux ABI, signed in the
  x86 ABIs), so it is a field of `Env` as well and `charToInt` follows it.
* `int` is the 32-bit two's-complement type; `&` on `int` is `intAnd`.  The
  arithmetic on the decoded value stays far inside the `int` range (its
  magnitude never exceeds `63 * 256 + 255`), so `+`, `*`, `-` are the integer
  operations.
* Bytes are natural numbers, reduced modulo 256 where they are stored in a
  `char`.
-/

namespace MMC3316xMT

/-! ## Machine-level helpers -/

/-- Value of a plain `char` object holding the byte `b`, after integer
promotion: `b` itself where `char` is unsigned, the two's-complement reading of
the byte where `char` is signed. -/
def charToInt (charSigned : Bool) (b : Nat) : Int :=
  if charSigned = true ∧ 128 ≤ b % 256 then ((b % 256 : Nat) : Int) - 256
  else ((b % 256 : Nat) : Int)

/-- Bit pattern of an `int` as an unsigned 32-bit number. -/
def toU32 (x : Int) : Nat := (x % 4294967296).toNat

/-- The `int` with a given 32-bit pattern. -/
def ofU32 (n : Nat) : Int :=
  if n % 4294967296 < 2147483648 then ((n % 4294967296 : Nat) : Int)
  else ((n % 4294967296 : Nat) : Int) - 4294967296

/-- C bitwise `&` on two `int` operands. -/
def intAnd (a b : Int) : Int := ofU32 (toU32 a &&& toU32 b)

/-- Conversion `%d` of `printf` for an `int` argument. -/
def fmtD (v : Int) : String := toString v

/-! ## Observable behaviour -/

/-- Request code `I2C_SLAVE` of `<linux/i2c-dev.h>` (a system header). -/
def I2C_SLAVE : Nat := 0x0703

/-- The bus device path of `main`. -/
def bus : String := "/dev/i2c-1"

/-- Calls `main` issues once the bus is open, in program order. -/
inductive BusOp where
  | ioctl (fd : Int) (request : Nat) (arg : Nat)
  | write (fd : Int) (bytes : List Nat)
  | sleep (seconds : Nat)
  | read (fd : Int) (count : Nat)
  deriving DecidableEq, Repr

/-- How the process ends: through `exit(status)`, or by `main` returning.
`main` is declared `void`, so a return hands no status value to the host. -/
inductive Termination where
  | exited (status : Nat)
  | returned
  deriving DecidableEq, Repr

/-- Exit status the program itself fixes: the argument of `exit`, and nothing
when the `void main` returns. -/
def exitStatus : Termination → Option Nat
  | .exited s => some s
  | .returned => none

/-- The three locals `xMag`, `yMag`, `zMag` of the success branch. -/
structure Reading where
  xMag : Int
  yMag : Int
  zMag : Int
  deriving DecidableEq, Repr

/-- Everything outside the program. -/
structure Env where
  /-- whether plain `char` is a signed type on the implementation -/
  charSigned : Bool
  /-- return value of `open(bus, O_RDWR)` -/
  openRet : Int
  /-- return value of the `ioctl` call (unused by the program) -/
  ioctlRet : Int
  /-- return value of the k-th `write` call (unused by the program) -/
  writeRet : Nat → Int
  /-- return value of `read(file, data, 6)` -/
  readRet : Int
  /-- bytes the driver stores at the start of the buffer during `read` -/
  readBytes : List Nat

/-- Program state that is observable from outside: calls issued so far and
text written to standard output so far. -/
structure Proc where
  ops : List BusOp
  out : String

/-- Result of one run of `main`. -/
structure Outcome where
  ops : List BusOp
  out : String
  termination : Termination
  reading : Option Reading

/-- Appends text to standard output. -/
def printf (p : Proc) (s : String) : Proc := { p with out := p.out ++ s }

/-- Records one call. -/
def call (p : Proc) (op : BusOp) : Proc := { p with ops := p.ops ++ [op] }

/-- Buffer contents after the driver has stored `delivered` at its start;
the rest of the buffer keeps its previous contents. -/
def storeBytes (buf delivered : List Nat) : List Nat :=
  ((delivered.take buf.length).map fun b => b % 256) ++ buf.drop delivered.length

/-- The statement pattern of lines 58-62 (repeated at 63-67 and 68-72):
`int v = ((hi & 0x3F) * 256) + lo; if (v > 8191) v -= 16384;`
where `lo` and `hi` are the bytes held by two `char` elements of `data`. -/
def decodeAxis (charSigned : Bool) (lo hi : Nat) : Int :=
  let v : Int := intAnd (charToInt charSigned hi) 0x3F * 256 + charToInt charSigned lo
  if v > 8191 then v - 16384 else v

/-- The function `main` of `C/MMC3316xMT.c`. -/
def main (env : Env) : Outcome :=
  let p : Proc := ⟨[], ""⟩
  let file : Int := env.openRet
  if file < 0 then
    let p := printf p "Failed to open the bus. \n"
    ⟨p.ops, p.out, .exited 1, none⟩
  else
    let p := call p (.ioctl file I2C_SLAVE 0x30)
    let config : List Nat := [0, 0]
    let config := (config.set 0 0x07).set 1 0x23
    let p := call p (.write file (config.take 2))
    let config := (config.set 0 0x07).set 1 0x00
    let p := call p (.write file (config.take 2))
    let config := (config.set 0 0x07).set 1 0x43
    let p := call p (.write file (config.take 2))
    let p := call p (.sleep 1)
    let reg : List Nat := [0x00]
    let p := call p (.write file (reg.take 1))
    let data : List Nat := [0, 0, 0, 0, 0, 0]
    let p := call p (.read file 6)
    let data := storeBytes data env.readBytes
    if env.readRet ≠ 6 then
      let p := printf p "Error : Input/output Error \n"
      ⟨p.ops, p.out, .returned, none⟩
    else
      let xMag := decodeAxis env.charSigned (data.getD 0 0) (data.getD 1 0)
      let yMag := decodeAxis env.charSigned (data.getD 2 0) (data.getD 3 0)
      let zMag := decodeAxis env.charSigned (data.getD 4 0) (data.getD 5 0)
      let p := printf p ("Magnetic field in X-Axis : " ++ fmtD xMag ++ " \n")
      let p := printf p ("Magnetic field in Y-Axis : " ++ fmtD yMag ++ " \n")
      let p := printf p ("Magnetic field in Z-Axis : " ++ fmtD zMag ++ " \n")
      ⟨p.ops, p.out, .returned, some ⟨xMag, yMag, zMag⟩⟩

/-! ## The decode as the specification words it -/

/-- Decode of the specification: `value = (hi & 0x3F) * 256 + lo`, both bytes
taken as unsigned; `if value > 8191 then value -= 16384`. -/
def specDecode (lo hi : Nat) : Int :=
  let value : Int := (((hi &&& 0x3F) * 256 + lo : Nat) : Int)
  if value > 8191 then value - 16384 else value

/-! ## Concrete environments used as test points -/

/-- An environment in which the bus opens as descriptor 3, every call
succeeds, and the read delivers the six bytes `bytes`. -/
def envRead (charSigned : Bool) (bytes : List Nat) : Env :=
  ⟨charSigned, 3, 0, fun _ => 2, 6, bytes⟩

/-- An environment in which the bus opens and the read returns `ret`, having
stored `bytes`. -/
def envReadRet (charSigned : Bool) (ret : Int) (bytes : List Nat) : Env :=
  ⟨charSigned, 3, 0, fun _ => 2, ret, bytes⟩

/-- An environment in which `open` fails. -/
def envNoBus : Env := ⟨false, -1, 0, fun _ => -1, -1, []⟩


/-! ## Helper lemmas -/

theorem charToInt_unsigned (b : Nat) : charToInt false b = ((b % 256 : Nat) : Int) := by
  simp [charToInt]

theorem charToInt_signed (b : Nat) :
    charToInt true b =
      if 128 ≤ b % 256 then ((b % 256 : Nat) : Int) - 256 else ((b % 256 : Nat) : Int) := by
  simp [charToInt]

theorem charToInt_bounds (cs : Bool) (b : Nat) :
    -128 ≤ charToInt cs b ∧ charToInt cs b ≤ 255 := by
  unfold charToInt
  split <;> omega

theorem intAnd_char_mask (cs : Bool) (b : Nat) :
    intAnd (charToInt cs b) 0x3F = ((b % 64 : Nat) : Int) := by
  have hm : ∀ n : Nat, n &&& 63 = n % 64 := fun n => Nat.and_pow_two_sub_one_eq_mod n 6
  have h63 : toU32 0x3F = 63 := by decide
  unfold intAnd
  rw [h63, hm]
  unfold charToInt toU32 ofU32
  split <;> split <;> omega

theorem decodeAxis_eq (cs : Bool) (lo hi : Nat) :
    decodeAxis cs lo hi =
      if ((hi % 64 : Nat) : Int) * 256 + charToInt cs lo > 8191
      then ((hi % 64 : Nat) : Int) * 256 + charToInt cs lo - 16384
      else ((hi % 64 : Nat) : Int) * 256 + charToInt cs lo := by
  unfold decodeAxis
  rw [intAnd_char_mask]

theorem decodeAxis_range (cs : Bool) (lo hi : Nat) :
    -8192 ≤ decodeAxis cs lo hi ∧ decodeAxis cs lo hi ≤ 8191 := by
  rw [decodeAxis_eq]
  have h := charToInt_bounds cs lo
  split <;> omega

theorem specDecode_eq (lo hi : Nat) :
    specDecode lo hi =
      if ((hi % 64 : Nat) : Int) * 256 + (lo : Int) > 8191
      then ((hi % 64 : Nat) : Int) * 256 + (lo : Int) - 16384
      else ((hi % 64 : Nat) : Int) * 256 + (lo : Int) := by
  have hm : hi &&& 63 = hi % 64 := Nat.and_pow_two_sub_one_eq_mod hi 6
  unfold specDecode
  simp only [hm]
  push_cast
  rfl

theorem main_open_failed (env : Env) (h : env.openRet < 0) :
    main env = ⟨[], "Failed to open the bus. \n", .exited 1, none⟩ := by
  simp [main, h, printf]

theorem main_short_read (env : Env) (h : ¬ env.openRet < 0) (hr : env.readRet ≠ 6) :
    main env =
      ⟨[.ioctl env.openRet I2C_SLAVE 0x30, .write env.openRet [0x07, 0x23],
        .write env.openRet [0x07, 0x00], .write env.openRet [0x07, 0x43], .sleep 1,
        .write env.openRet [0x00], .read env.openRet 6],
       "Error : Input/output Error \n", .returned, none⟩ := by
  simp [main, h, hr, printf, call]

theorem main_full_read (env : Env) (h : ¬ env.openRet < 0) (hr : env.readRet = 6) :
    main env =
      ⟨[.ioctl env.openRet I2C_SLAVE 0x30, .write env.openRet [0x07, 0x23],
        .write env.openRet [0x07, 0x00], .write env.openRet [0x07, 0x43], .sleep 1,
        .write env.openRet [0x00], .read env.openRet 6],
       "Magnetic field in X-Axis : "
         ++ fmtD (decodeAxis env.charSigned
              ((storeBytes [0, 0, 0, 0, 0, 0] env.readBytes).getD 0 0)
              ((storeBytes [0, 0, 0, 0, 0, 0] env.readBytes).getD 1 0)) ++ " \n"
         ++ ("Magnetic field in Y-Axis : "
         ++ fmtD (decodeAxis env.charSigned
              ((storeBytes [0, 0, 0, 0, 0, 0] env.readBytes).getD 2 0)
              ((storeBytes [0, 0, 0, 0, 0, 0] env.readBytes).getD 3 0)) ++ " \n")
         ++ ("Magnetic field in Z-Axis : "
         ++ fmtD (decodeAxis env.charSigned
              ((storeBytes [0, 0, 0, 0, 0, 0] env.readBytes).getD 4 0)
              ((storeBytes [0, 0, 0, 0, 0, 0] env.readBytes).getD 5 0)) ++ " \n"),
       .returned,
       some ⟨decodeAxis env.charSigned
              ((storeBytes [0, 0, 0, 0, 0, 0] env.readBytes).getD 0 0)
              ((storeBytes [0, 0, 0, 0, 0, 0] env.readBytes).getD 1 0),
             decodeAxis env.charSigned
              ((storeBytes [0, 0, 0, 0, 0, 0] env.readBytes).getD 2 0)
              ((storeBytes [0, 0, 0, 0, 0, 0] env.readBytes).getD 3 0),
             decodeAxis env.charSigned
              ((storeBytes [0, 0, 0, 0, 0, 0] env.readBytes).getD 4 0)
              ((storeBytes [0, 0, 0, 0, 0, 0] env.readBytes).getD 5 0)⟩⟩ := by
  simp [main, h, hr, printf, call]

theorem storeBytes_six (d0 d1 d2 d3 d4 d5 : Nat) :
    storeBytes [0, 0, 0, 0, 0, 0] [d0, d1, d2, d3, d4, d5]
      = [d0 % 256, d1 % 256, d2 % 256, d3 % 256, d4 % 256, d5 % 256] := by
  simp [storeBytes]


/-! ## The decode on implementations with unsigned plain `char` -/

/-- Where plain `char` is unsigned, the value `main` computes for an axis from
the byte pair `(lo, hi)` is the decode of the specification. -/
theorem decodeAxis_unsigned_eq_specDecode (lo hi : Nat) (hlo : lo < 256) :
    decodeAxis false lo hi = specDecode lo hi := by
  rw [decodeAxis_eq, specDecode_eq, charToInt_unsigned, Nat.mod_eq_of_lt hlo]

/-- Where plain `char` is signed, the computed value is the decode of the
specification as long as the low byte is below `0x80`. -/
theorem decodeAxis_signed_eq_specDecode_of_low (lo hi : Nat) (hlo : lo < 128) :
    decodeAxis true lo hi = specDecode lo hi := by
  rw [decodeAxis_eq, specDecode_eq]
  have h : charToInt true lo = (lo : Int) := by
    rw [charToInt_signed]
    split <;> omega
  rw [h]

/-- Where plain `char` is signed and the low byte is `0x80` or more, the
computed value never is the decode of the specification. -/
theorem decodeAxis_signed_ne_specDecode_of_high (lo hi : Nat) (h1 : 128 ≤ lo) (h2 : lo < 256) :
    decodeAxis true lo hi ≠ specDecode lo hi := by
  rw [decodeAxis_eq, specDecode_eq]
  have h : charToInt true lo = (lo : Int) - 256 := by
    rw [charToInt_signed]
    split <;> omega
  rw [h]
  split <;> split <;> omega

/-- Where plain `char` is unsigned the decode loses nothing of the 14-bit
field: re-encoding returns the bytes. -/
theorem decodeAxis_unsigned_reencode (lo hi : Nat) (hlo : lo < 256) (hhi : hi < 64) :
    (decodeAxis false lo hi % 16384) % 256 = (lo : Int) ∧
      (decodeAxis false lo hi % 16384) / 256 = (hi : Int) := by
  rw [decodeAxis_eq, charToInt_unsigned]
  split <;> omega

/-- Where plain `char` is unsigned, two pairs with high bytes in `0..63` that
decode to the same value are equal. -/
theorem decodeAxis_unsigned_injective (lo hi lo2 hi2 : Nat)
    (h1 : lo < 256) (h2 : hi < 64) (h3 : lo2 < 256) (h4 : hi2 < 64)
    (h : decodeAxis false lo hi = decodeAxis false lo2 hi2) : lo = lo2 ∧ hi = hi2 := by
  have a := decodeAxis_unsigned_reencode lo hi h1 h2
  have b := decodeAxis_unsigned_reencode lo2 hi2 h3 h4
  rw [h] at a
  omega

/-- Where plain `char` is unsigned, every integer of `[-8192, 8191]` is the
decode of a pair with high byte in `0..63`. -/
theorem decodeAxis_unsigned_surjective (v : Int) (h1 : -8192 ≤ v) (h2 : v ≤ 8191) :
    ∃ lo hi : Nat, lo < 256 ∧ hi < 64 ∧ decodeAxis false lo hi = v := by
  refine ⟨((v % 16384) % 256).toNat, ((v % 16384) / 256).toNat, by omega, by omega, ?_⟩
  rw [decodeAxis_eq, charToInt_unsigned]
  split <;> omega

/-! ## Claims -/

/-- C1 (the code departs from the claim where plain `char` is signed): for the
byte pair `lo = 0x80`, `hi = 0x00` the value `main` computes on such an
implementation is `-128`, while the decode of the specification, which takes
`lo` as an unsigned byte, is `128`. -/
theorem C1_signed_char_low_byte_sign_extended :
    decodeAxis true 0x80 0x00 = -128 ∧ specDecode 0x80 0x00 = 128 ∧
      specDecode 0x00 0x00 = 0 := by
  decide

/-- C2: whatever the six bytes in the buffer and whatever the signedness of
plain `char`, each of `xMag`, `yMag`, `zMag` computed by `main` lies in
`[-8192, 8191]`. -/
theorem C2_reading_in_range (env : Env) (r : Reading)
    (h : (main env).reading = some r) :
    (-8192 ≤ r.xMag ∧ r.xMag ≤ 8191) ∧ (-8192 ≤ r.yMag ∧ r.yMag ≤ 8191) ∧
      (-8192 ≤ r.zMag ∧ r.zMag ≤ 8191) := by
  by_cases ho : env.openRet < 0
  · rw [main_open_failed env ho] at h
    simp at h
  · by_cases hr : env.readRet = 6
    · rw [main_full_read env ho hr] at h
      simp only [Option.some.injEq] at h
      subst h
      exact ⟨decodeAxis_range _ _ _, decodeAxis_range _ _ _, decodeAxis_range _ _ _⟩
    · rw [main_short_read env ho hr] at h
      simp at h

/-- C2 at a full read of `0x00, 0x20, 0xFF, 0x1F, 0x80, 0xFF` with signed `char`. -/
theorem C2_reading_in_range_witness :
    (main (envRead true [0x00, 0x20, 0xFF, 0x1F, 0x80, 0xFF])).reading
        = some ⟨-8192, 7935, -384⟩ ∧
      ((-8192 ≤ (Reading.mk (-8192) 7935 (-384)).xMag ∧
          (Reading.mk (-8192) 7935 (-384)).xMag ≤ 8191) ∧
        (-8192 ≤ (Reading.mk (-8192) 7935 (-384)).yMag ∧
          (Reading.mk (-8192) 7935 (-384)).yMag ≤ 8191) ∧
        (-8192 ≤ (Reading.mk (-8192) 7935 (-384)).zMag ∧
          (Reading.mk (-8192) 7935 (-384)).zMag ≤ 8191)) :=
  ⟨by decide,
   C2_reading_in_range (envRead true [0x00, 0x20, 0xFF, 0x1F, 0x80, 0xFF])
     ⟨-8192, 7935, -384⟩ (by decide)⟩

/-- C3 as stated fails: the value computed from `lo = 0xFF`, `hi = 0x3F` is
not `8191`, whichever signedness plain `char` has. -/
theorem C3_all_ones_is_not_8191 :
    decodeAxis false 0xFF 0x3F ≠ 8191 ∧ decodeAxis true 0xFF 0x3F ≠ 8191 := by
  decide

/-- C3 amended: with plain `char` unsigned, `main` computes `-1` from the pair
`lo = 0xFF`, `hi = 0x3F` (the all-ones 14-bit field), and computes the maximum
positive reading `8191` from `lo = 0xFF`, `hi = 0x1F`; no byte pair gives a
larger value. -/
theorem C3_all_ones_and_maximum :
    (main (envRead false [0xFF, 0x3F, 0xFF, 0x1F, 0x00, 0x00])).reading
        = some ⟨-1, 8191, 0⟩ ∧
      decodeAxis false 0xFF 0x3F = -1 ∧ decodeAxis false 0xFF 0x1F = 8191 ∧
      ∀ (cs : Bool) (lo hi : Nat), decodeAxis cs lo hi ≤ 8191 :=
  ⟨by decide, by decide, by decide, fun cs lo hi => (decodeAxis_range cs lo hi).2⟩

/-- C4: bits 6 and 7 of the high byte are ignored: the value computed from
`(lo, hi)` is the value computed from `(lo, hi & 0x3F)`, and the pair
`(0x00, 0x40)` gives `0`. -/
theorem C4_high_bits_ignored (cs : Bool) (lo hi : Nat) :
    decodeAxis cs lo hi = decodeAxis cs lo (hi &&& 0x3F) ∧
      decodeAxis cs 0x00 0x40 = 0 := by
  have hm : hi &&& 63 = hi % 64 := Nat.and_pow_two_sub_one_eq_mod hi 6
  refine ⟨?_, by cases cs <;> decide⟩
  rw [decodeAxis_eq cs lo hi, decodeAxis_eq cs lo (hi &&& 0x3F)]
  simp only [hm, Nat.mod_mod]

/-- C5: whenever the bus opened and `read` returns anything but 6, standard
output is exactly the short-read line and no axis value is produced, whatever
the buffer holds. -/
theorem C5_short_read_output (env : Env) (ho : 0 ≤ env.openRet) (hr : env.readRet ≠ 6) :
    (main env).out = "Error : Input/output Error \n" ∧ (main env).reading = none := by
  rw [main_short_read env (not_lt.mpr ho) hr]
  exact ⟨rfl, rfl⟩

/-- C5 at a read that returns `-1` after the bus opened. -/
theorem C5_short_read_output_witness :
    (main (envReadRet true (-1) [0xFF, 0x3F, 0x12])).out = "Error : Input/output Error \n" ∧
      (main (envReadRet true (-1) [0xFF, 0x3F, 0x12])).reading = none :=
  C5_short_read_output (envReadRet true (-1) [0xFF, 0x3F, 0x12]) (by decide) (by decide)

/-- C6: whenever the bus opens, the calls issued are exactly: bind slave
address `0x30`, write `[0x07, 0x23]`, write `[0x07, 0x00]`, write
`[0x07, 0x43]`, sleep one second, write `[0x00]`, read 6 bytes, in this order;
the sleep occurs once, and the trace does not depend on what `ioctl`, the
writes or the read return. -/
theorem C6_bus_trace (env : Env) (ho : 0 ≤ env.openRet) :
    (main env).ops =
        [.ioctl env.openRet I2C_SLAVE 0x30, .write env.openRet [0x07, 0x23],
         .write env.openRet [0x07, 0x00], .write env.openRet [0x07, 0x43], .sleep 1,
         .write env.openRet [0x00], .read env.openRet 6] ∧
      (main env).ops.count (.sleep 1) = 1 ∧
      ∀ (i : Int) (w : Nat → Int) (r : Int) (bytes : List Nat),
        (main ⟨env.charSigned, env.openRet, i, w, r, bytes⟩).ops = (main env).ops := by
  have key : ∀ e : Env, 0 ≤ e.openRet →
      (main e).ops =
        [.ioctl e.openRet I2C_SLAVE 0x30, .write e.openRet [0x07, 0x23],
         .write e.openRet [0x07, 0x00], .write e.openRet [0x07, 0x43], .sleep 1,
         .write e.openRet [0x00], .read e.openRet 6] := by
    intro e he
    by_cases hr : e.readRet = 6
    · rw [main_full_read e (not_lt.mpr he) hr]
    · rw [main_short_read e (not_lt.mpr he) hr]
  refine ⟨key env ho, ?_, ?_⟩
  · rw [key env ho]
    simp [List.count_cons]
  · intro i w r bytes
    rw [key env ho, key ⟨env.charSigned, env.openRet, i, w, r, bytes⟩ ho]

/-- C6 at a run in which the bus opens as descriptor 3. -/
theorem C6_bus_trace_witness :
    (main (envReadRet false 0 [])).ops =
        [.ioctl 3 I2C_SLAVE 0x30, .write 3 [0x07, 0x23], .write 3 [0x07, 0x00],
         .write 3 [0x07, 0x43], .sleep 1, .write 3 [0x00], .read 3 6] ∧
      (main (envReadRet false 0 [])).ops.count (.sleep 1) = 1 ∧
      ∀ (i : Int) (w : Nat → Int) (r : Int) (bytes : List Nat),
        (main ⟨false, 3, i, w, r, bytes⟩).ops = (main (envReadRet false 0 [])).ops :=
  C6_bus_trace (envReadRet false 0 []) (by decide)

/-- C7: when `open` returns a negative value, standard output is exactly the
line `Failed to open the bus. `, the process ends through `exit(1)`, no
ioctl, write, sleep or read is issued and no axis value is produced. -/
theorem C7_open_failure (env : Env) (ho : env.openRet < 0) :
    (main env).out = "Failed to open the bus. \n" ∧
      (main env).termination = .exited 1 ∧
      exitStatus (main env).termination = some 1 ∧
      (main env).ops = [] ∧ (main env).reading = none := by
  rw [main_open_failed env ho]
  exact ⟨rfl, rfl, rfl, rfl, rfl⟩

/-- C7 at a run in which `open` returns `-1`. -/
theorem C7_open_failure_witness :
    (main envNoBus).out = "Failed to open the bus. \n" ∧
      (main envNoBus).termination = .exited 1 ∧
      exitStatus (main envNoBus).termination = some 1 ∧
      (main envNoBus).ops = [] ∧ (main envNoBus).reading = none :=
  C7_open_failure envNoBus (by decide)

/-- C8 as stated fails: when the bus opens, the program does not end with
exit status 0; `main`, declared `void`, returns without giving a status, both
after a full read and after a short read. -/
theorem C8_no_zero_status_when_bus_opens :
    exitStatus (main (envRead false [0, 0, 0, 0, 0, 0])).termination ≠ some 0 ∧
      exitStatus (main (envReadRet false 2 [0, 0])).termination ≠ some 0 := by
  decide

/-- C8 amended: the program ends through `exit(1)` exactly when `open` fails;
whenever the bus opens, `main` returns without supplying an exit status, in
the same way after a full read and after a short read. -/
theorem C8_termination (env : Env) :
    (env.openRet < 0 → (main env).termination = .exited 1) ∧
      (0 ≤ env.openRet →
        (main env).termination = .returned ∧ exitStatus (main env).termination = none) ∧
      (exitStatus (main env).termination = some 1 ↔ env.openRet < 0) := by
  by_cases ho : env.openRet < 0
  · rw [main_open_failed env ho]
    simp [exitStatus, ho]
  · by_cases hr : env.readRet = 6
    · rw [main_full_read env ho hr]
      simp [exitStatus, ho]
    · rw [main_short_read env ho hr]
      simp [exitStatus, ho]

/-- C8 amended, at a failed open, a short read and a full read. -/
theorem C8_termination_witness :
    (main envNoBus).termination = .exited 1 ∧
      ((main (envReadRet false 2 [0, 0])).termination = .returned ∧
        exitStatus (main (envReadRet false 2 [0, 0])).termination = none) ∧
      ((main (envRead false [1, 2, 3, 4, 5, 6])).termination = .returned ∧
        exitStatus (main (envRead false [1, 2, 3, 4, 5, 6])).termination = none) :=
  ⟨(C8_termination envNoBus).1 (by decide),
   (C8_termination (envReadRet false 2 [0, 0])).2.1 (by decide),
   (C8_termination (envRead false [1, 2, 3, 4, 5, 6])).2.1 (by decide)⟩

/-- Where plain `char` is unsigned, a full read of the bytes `d0..d5` makes
`main` print exactly the three axis lines, in the order X, Y, Z, with the
specification decode of `(d0, d1)`, `(d2, d3)`, `(d4, d5)`. -/
theorem main_unsigned_full_read_output (env : Env) (d0 d1 d2 d3 d4 d5 : Nat)
    (hc : env.charSigned = false) (ho : 0 ≤ env.openRet) (hr : env.readRet = 6)
    (hb : env.readBytes = [d0, d1, d2, d3, d4, d5])
    (h0 : d0 < 256) (h1 : d1 < 256) (h2 : d2 < 256) (h3 : d3 < 256)
    (h4 : d4 < 256) (h5 : d5 < 256) :
    (main env).out =
        "Magnetic field in X-Axis : " ++ fmtD (specDecode d0 d1) ++ " \n"
          ++ ("Magnetic field in Y-Axis : " ++ fmtD (specDecode d2 d3) ++ " \n")
          ++ ("Magnetic field in Z-Axis : " ++ fmtD (specDecode d4 d5) ++ " \n") ∧
      (main env).reading = some ⟨specDecode d0 d1, specDecode d2 d3, specDecode d4 d5⟩ := by
  rw [main_full_read env (not_lt.mpr ho) hr, hb, storeBytes_six, hc]
  simp only [List.getD_cons_zero, List.getD_cons_succ, Nat.mod_eq_of_lt h0,
    Nat.mod_eq_of_lt h1, Nat.mod_eq_of_lt h2, Nat.mod_eq_of_lt h3, Nat.mod_eq_of_lt h4,
    Nat.mod_eq_of_lt h5, decodeAxis_unsigned_eq_specDecode _ _ h0,
    decodeAxis_unsigned_eq_specDecode _ _ h2, decodeAxis_unsigned_eq_specDecode _ _ h4,
    and_self]

/-- On a full read, whatever the signedness of plain `char`, the three lines
are printed in the order X, Y, Z and each axis value is computed from its own
byte pair only. -/
theorem main_full_read_axes (env : Env) (d0 d1 d2 d3 d4 d5 : Nat)
    (ho : 0 ≤ env.openRet) (hr : env.readRet = 6)
    (hb : env.readBytes = [d0, d1, d2, d3, d4, d5]) :
    (main env).out =
        "Magnetic field in X-Axis : " ++ fmtD (decodeAxis env.charSigned d0 d1) ++ " \n"
          ++ ("Magnetic field in Y-Axis : " ++ fmtD (decodeAxis env.charSigned d2 d3) ++ " \n")
          ++ ("Magnetic field in Z-Axis : " ++ fmtD (decodeAxis env.charSigned d4 d5) ++ " \n") ∧
      (main env).reading =
        some ⟨decodeAxis env.charSigned d0 d1, decodeAxis env.charSigned d2 d3,
              decodeAxis env.charSigned d4 d5⟩ := by
  have hmod : ∀ (cs : Bool) (lo hi : Nat),
      decodeAxis cs (lo % 256) (hi % 256) = decodeAxis cs lo hi := by
    intro cs lo hi
    rw [decodeAxis_eq, decodeAxis_eq]
    have e1 : hi % 256 % 64 = hi % 64 := by omega
    have e2 : charToInt cs (lo % 256) = charToInt cs lo := by
      unfold charToInt
      rw [Nat.mod_mod]
    rw [e1, e2]
  rw [main_full_read env (not_lt.mpr ho) hr, hb, storeBytes_six]
  simp only [List.getD_cons_zero, List.getD_cons_succ, hmod, and_self]

/-- C9 (the code departs from the claim where plain `char` is signed): on
such an implementation a full read of the bytes
`0x80, 0x00, 0xFF, 0x1F, 0x00, 0x20` prints the X value `-128` and the Y value
`7935`, while the specification decode of `(0x80, 0x00)` is `128` and of
`(0xFF, 0x1F)` is `8191`; the Z line agrees with the decode `-8192`. -/
theorem C9_signed_char_axis_lines :
    (main (envRead true [0x80, 0x00, 0xFF, 0x1F, 0x00, 0x20])).out =
        "Magnetic field in X-Axis : -128 \nMagnetic field in Y-Axis : 7935 \nMagnetic field in Z-Axis : -8192 \n" ∧
      specDecode 0x80 0x00 = 128 ∧ specDecode 0xFF 0x1F = 8191 ∧
      specDecode 0x00 0x20 = -8192 := by
  decide

/-- C10 (the code departs from the claim where plain `char` is signed): from
`lo = 0xFF`, `hi = 0x00` such an implementation computes `-1`, and re-encoding
`-1` gives the high byte `63`, not `0`. -/
theorem C10_signed_char_reencode_fails :
    decodeAxis true 0xFF 0x00 = -1 ∧
      (decodeAxis true 0xFF 0x00 % 16384) / 256 = 63 ∧
      (decodeAxis true 0xFF 0x00 % 16384) % 256 = 255 := by
  decide

end MMC3316xMT
